import Mathlib

/-!
# Verification of `ecaplugin.py`

A shallow embedding of `ecaplugin.py`, a tool that extracts LADSPA/LV2
plugin parameter sets from Ardour 2.x / Ardour 3.x / JACK Rack session
documents and renders them as ecasound command-line fragments.

Modelling conventions:

* Python strings are `String`, Python lists are `List`, Python `int` is
  `Int` (arbitrary precision, as in Python), `None` is `Option.none`.
* Python `float` values are modelled exactly: every float that arises in
  this program is produced by `float(value)` on a decimal numeric string,
  and `str`/`repr` of a Python float is guaranteed to round-trip to the
  same float value.  We therefore model a float by the exact rational it
  denotes, carried as a pair `m * 10 ^ e` (`PyFloat`), and model `str` of
  a float as an exact decimal rendering of that rational.  Equality of
  floats is exact equality of the denoted rationals.
* `sys.exit(msg)` and uncaught exceptions terminate the process; fallible
  operations are modelled with `Option` / `Except FmtError`.
* XML elements are modelled by records carrying exactly the attributes and
  child data that the source reads from them.
-/

/-! ## Decimal digit strings

Machinery shared by the model of Python's `float()` parser, `int()`
parser, and `str()` renderings of `int` and `float`. -/

/-- `c` is a decimal digit character (models Python's digit test inside
`float()` / `int()` parsing). -/
def isDig (c : Char) : Bool := 48 ≤ c.toNat && c.toNat ≤ 57

/-- Numeric value of a digit character. -/
def digitVal (c : Char) : Nat := c.toNat - 48

/-- Value of a digit string, most significant digit first. -/
def digitsToNat (cs : List Char) : Nat := cs.foldl (fun a c => a * 10 + digitVal c) 0

/-- The digit character for `m < 10`. -/
def digitChar (m : Nat) : Char := Char.ofNat (48 + m)

/-- Decimal digits of `n`, least significant first; `fuel`-driven so that
the kernel can evaluate it (`fuel ≥ n` suffices). -/
def natDigitsRevAux : Nat → Nat → List Char
  | 0, _ => []
  | _ + 1, 0 => []
  | fuel + 1, n + 1 => digitChar ((n + 1) % 10) :: natDigitsRevAux fuel ((n + 1) / 10)

/-- Decimal digit string of `n`, most significant digit first (the digits
of Python's decimal rendering of a non-negative integer). -/
def natToDigits (n : Nat) : List Char :=
  if n = 0 then ['0'] else (natDigitsRevAux n n).reverse

/-- Models Python `str(i)` for an `int` `i`: decimal digits with a leading
`-` for negative numbers. -/
def str_int (i : Int) : String :=
  String.mk ((if i < 0 then ['-'] else []) ++ natToDigits i.natAbs)

/-! ## Python numeric values

`float(value)` on a decimal numeric string, `int(float)` truncation, and
the decimal renderings `str(int)` / `str(float)`, modelled exactly.  A
parsed float is represented by the exact rational `m * 10 ^ e` it
denotes (structure `PyFloat`); `str` of a float is modelled as an exact
decimal rendering of that rational, which is the guarantee Python's
shortest-round-trip `repr` provides. -/

/-- Exact value of a Python float produced by parsing a decimal string:
the rational `m * 10 ^ e`. -/
structure PyFloat where
  m : Int
  e : Int
deriving DecidableEq

/-- Leading sign of a numeric literal: consumes one `-` or `+`. -/
def readSign (cs : List Char) : Bool × List Char :=
  match cs with
  | c :: r => if c = '-' then (true, r) else if c = '+' then (false, r) else (false, cs)
  | [] => (false, cs)

/-- Fractional part of a float literal: a `.` followed by a digit run
(possibly empty); absent otherwise. -/
def parseFrac (cs : List Char) : List Char × List Char :=
  match cs with
  | c :: r => if c = '.' then (r.takeWhile isDig, r.dropWhile isDig) else ([], cs)
  | [] => ([], cs)

/-- Exponent digits after the `e` marker: optional sign, then a non-empty
digit run consuming the rest of the literal. -/
def parseExpAfter (cs : List Char) : Option Int :=
  let sg := readSign cs
  let d := sg.2.takeWhile isDig
  let r := sg.2.dropWhile isDig
  if d.isEmpty || !r.isEmpty then none
  else some (if sg.1 then -(digitsToNat d : Int) else (digitsToNat d : Int))

/-- Exponent part of a float literal: empty, or `e`/`E` followed by a
signed digit run. -/
def parseExp (cs : List Char) : Option Int :=
  match cs with
  | [] => some 0
  | c :: r => if c = 'e' ∨ c = 'E' then parseExpAfter r else none

/-- Models Python `float(value)` on a decimal numeric string (character
list): optional sign, digit run with optional fractional part (at least
one digit over the two runs), optional exponent.  The value is kept
exactly.  (Python also accepts `inf`/`nan` words, underscores and
surrounding whitespace; those inputs are outside this model.) -/
def parsePyFloatChars (cs : List Char) : Option PyFloat :=
  let sg := readSign cs
  let ip := sg.2.takeWhile isDig
  let cs2 := sg.2.dropWhile isDig
  let fr := parseFrac cs2
  if ip.isEmpty && fr.1.isEmpty then none
  else
    match parseExp fr.2 with
    | none => none
    | some ex =>
      let m0 : Int := (digitsToNat (ip ++ fr.1) : Int)
      some ⟨if sg.1 then -m0 else m0, ex - fr.1.length⟩

/-- Models Python `float(value)` on a decimal numeric string. -/
def parsePyFloat (s : String) : Option PyFloat := parsePyFloatChars s.data

/-- Models Python `int(s)` on a decimal integer string: optional sign and
a non-empty digit run. -/
def parsePyInt (s : String) : Option Int :=
  let sg := readSign s.data
  let d := sg.2.takeWhile isDig
  let r := sg.2.dropWhile isDig
  if d.isEmpty || !r.isEmpty then none
  else some (if sg.1 then -(digitsToNat d : Int) else (digitsToNat d : Int))

/-- Models Python `int(floating)`: truncation of the exact value toward
zero. -/
def pyTrunc (x : PyFloat) : Int :=
  if 0 ≤ x.e then x.m * 10 ^ x.e.toNat else Int.tdiv x.m (10 ^ (-x.e).toNat)

/-- Models the float comparison `float(integer) == floating`: exact
equality of the denoted rationals, decided on the integer
representation. -/
def PyFloat.eqInt (x : PyFloat) (t : Int) : Bool :=
  if 0 ≤ x.e then t == x.m * 10 ^ x.e.toNat else t * 10 ^ (-x.e).toNat == x.m

/-- Left-pads a digit run with `0` to width `k`. -/
def zeroPad (k : Nat) (cs : List Char) : List Char :=
  List.replicate (k - cs.length) '0' ++ cs

/-- Models Python `str(floating)`: a decimal rendering of the exact value
of the float.  (Python renders the shortest decimal that parses back to
the same float; we render the exact value, which likewise parses back to
the same value.) -/
def renderFloat (x : PyFloat) : String :=
  let sign := if x.m < 0 then "-" else ""
  let a := x.m.natAbs
  if 0 ≤ x.e then
    sign ++ String.mk (natToDigits (a * 10 ^ x.e.toNat)) ++ ".0"
  else
    let k := (-x.e).toNat
    sign ++ String.mk (natToDigits (a / 10 ^ k)) ++ "." ++ String.mk (zeroPad k (natToDigits (a % 10 ^ k)))

/-- `EcasoundOutput.format_value`: parse `value` as a float; if it equals
its integer truncation exactly, render the truncation as an integer
string, else render the float.  `none` models the `ValueError` Python's
`float()` raises on non-numeric strings. -/
def format_value (value : String) : Option String :=
  match parsePyFloat value with
  | none => none
  | some floating =>
    let integer := pyTrunc floating
    if floating.eqInt integer then some (str_int integer)
    else some (renderFloat floating)

/-- A plugin descriptor: `LadspaPlugin` (numeric `unique_id`) or
`LV2Plugin` (`uri`), each with ordered raw string parameter `values`, an
`enabled` flag and an optional display `name`. -/
inductive Plugin where
  | ladspa (unique_id : Int) (values : List String) (enabled : Bool) (name : Option String)
  | lv2 (uri : String) (values : List String) (enabled : Bool) (name : Option String)
deriving DecidableEq

def Plugin.enabled : Plugin → Bool
  | .ladspa _ _ e _ => e
  | .lv2 _ _ e _ => e

def Plugin.name : Plugin → Option String
  | .ladspa _ _ _ n => n
  | .lv2 _ _ _ n => n

def Plugin.values : Plugin → List String
  | .ladspa _ v _ _ => v
  | .lv2 _ v _ _ => v

/-- `format_cmdline`: the plugin's invocation on the ecasound command
line, `-eli:<id>,<v1>,...` or `-elv2:<uri>,<v1>,...`, with each value put
through `fv` (the formatter passes `format_value`; `none` propagates its
`ValueError`). -/
def Plugin.format_cmdline (p : Plugin) (fv : String → Option String) : Option String :=
  match p with
  | .ladspa uid values _ _ =>
    (values.mapM fv).map fun vs => "-eli:" ++ str_int uid ++ "," ++ String.intercalate "," vs
  | .lv2 uri values _ _ =>
    (values.mapM fv).map fun vs => "-elv2:" ++ uri ++ "," ++ String.intercalate "," vs

/-- A track: a sequence of plugins, channel count, sample rate and an
optional name. -/
structure Track where
  plugins : List Plugin
  nchannels : Int
  samplerate : Int
  name : Option String
deriving DecidableEq

/-! ## The formatter (`EcasoundOutput`) -/

/-- The configuration fields of `EcasoundOutput` (copied from the parsed
command-line arguments). -/
structure Args where
  include_indices : List Int
  exclude_indices : List Int
  include_disabled : Bool
  single_line : Bool
  no_description : Bool
  chain_setup : Bool
  client_name : String
deriving DecidableEq

/-- How a formatting call can terminate the process: `exit` models
`sys.exit(msg)` from the index validation; `valueError` models the
`ValueError` of `float()` on a non-numeric value propagating; `typeError`
models `len(None)` on a track without a name. -/
inductive FmtError where
  | exit (msg : String)
  | valueError
  | typeError
deriving DecidableEq

/-- `EcasoundOutput.format_plugin`: one line (or two, with descriptions)
per plugin — an optional `# <index>: <name>` comment line, then the
command fragment, `# `-prefixed if the plugin is disabled. -/
def format_plugin (o : Args) (index : Int) (plugin : Plugin) : Option String :=
  let description := if !o.no_description then
      "# " ++ str_int index ++ ": " ++ (match plugin.name with | some n => n | none => "") ++ "\n"
    else ""
  let comment := if !plugin.enabled then "# " else ""
  (plugin.format_cmdline format_value).map fun cmd => description ++ comment ++ cmd

/-- The effective plugin index list of `format_track` over `n` plugins:
the inclusion list if non-empty, otherwise all indices of `[0, n)` not in
the exclusion list. -/
def effective_indices (o : Args) (n : Nat) : List Int :=
  if !o.include_indices.isEmpty then o.include_indices
  else ((List.range n).map (fun (i : Nat) => (i : Int))).filter (fun i => !o.exclude_indices.contains i)

/-- The indexed plugin list `format_track` renders: the plugins at the
effective indices, filtered to the enabled ones unless
`include_disabled`. -/
def selected_plugins (o : Args) (track : Track) : List (Int × Plugin) :=
  ((effective_indices o track.plugins.length).filterMap fun i =>
      (track.plugins.get? i.toNat).map fun p => (i, p)).filter
    fun ip => ip.2.enabled || o.include_disabled

/-- The fixed chain-setup preamble of `format_track` (sample format,
channels, sample rate, jack client connection). -/
def chain_setup_preamble (o : Args) (track : Track) : String :=
  "-f:f32," ++ str_int track.nchannels ++ "," ++ str_int track.samplerate ++
    " -G:jack," ++ o.client_name ++ ",notransport -i:jack -o:jack"

/-- `EcasoundOutput.format_track`: validate the configured index lists
against the track's plugin count (`sys.exit` on the first out-of-range
index), resolve the effective indices, select the plugins to render, join
their renderings with a space (single-line) or newline, and prepend the
chain-setup preamble and a blank line if requested. -/
def format_track (o : Args) (track : Track) : Except FmtError String :=
  match (o.include_indices ++ o.exclude_indices).find?
      (fun i => decide (i < 0) || decide ((track.plugins.length : Int) ≤ i)) with
  | some i => .error (.exit ("error: plugin index " ++ str_int i ++ " is out of range"))
  | none =>
    let plugins := selected_plugins o track
    let separator := if o.single_line then " " else "\n"
    match plugins.mapM (fun ip => format_plugin o ip.1 ip.2) with
    | none => .error .valueError
    | some strs =>
      let string := String.intercalate separator strs
      if o.chain_setup then .ok (chain_setup_preamble o track ++ "\n\n" ++ string)
      else .ok string

/-- Models Python `'-' * n`. -/
def dashes (n : Nat) : String := String.mk (List.replicate n '-')

/-- The per-track blocks of `format_session`: each track's name, a colon,
an underline of dashes of the length of `name + ':'`, and the track's
rendering.  A missing name fails like Python's `len(None)`. -/
def session_blocks (o : Args) : List Track → Except FmtError (List String)
  | [] => .ok []
  | t :: ts => do
    let n ← match t.name with
      | some n => pure n
      | none => Except.error FmtError.typeError
    let body ← format_track o t
    let rest ← session_blocks o ts
    pure ((n ++ ":\n" ++ dashes (n.length + 1) ++ "\n" ++ body) :: rest)

/-- `EcasoundOutput.format_session`: every track's block, joined by blank
lines. -/
def format_session (o : Args) (tracks : List Track) : Except FmtError String :=
  (session_blocks o tracks).map (String.intercalate "\n\n")

/-! ## The Ardour 2.x parser (`Ardour2Session`)

XML elements are modelled by records of exactly the attributes and child
data the source reads. -/

/-- The `IO` child of a `Route` element: the optional `input-connection`
attribute, the `inputs` attribute and the `name` attribute. -/
structure A2IOElem where
  input_connection : Option String
  inputs : String
  name : String
deriving DecidableEq

/-- An `Insert` element of a route: its `type` attribute, the `Redirect`
child's `placement` and `active` attributes, the `Redirect`'s `IO` child's
`name` attribute, the insert's `unique-id` attribute, and the `value`
attributes of the `port` children of its `ladspa` resp. `lv2` child. -/
structure A2Insert where
  type : String
  placement : String
  active : String
  redirect_io_name : String
  unique_id : String
  ladspa_port_values : List String
  lv2_port_values : List String
deriving DecidableEq

/-- A `Route` element: its `IO` child and its `Insert` elements in
document order. -/
structure A2Route where
  io : A2IOElem
  inserts : List A2Insert
deriving DecidableEq

/-- Models Python `sub in s` for a single-character needle. -/
def pyContainsChar (s : String) (c : Char) : Bool := s.data.contains c

/-- Models Python `s.count(sub)` for a single-character needle. -/
def pyCountChar (s : String) (c : Char) : Nat := s.data.count c

/-- The insert is placed post-fader (`insert.Redirect['placement'] ==
'PostFader'`). -/
def A2Insert.is_post (ins : A2Insert) : Bool := ins.placement == "PostFader"

/-- `Ardour2Session.parse_ladspa`: enabled flag from the `active`
attribute, name from the redirect IO, numeric id parsed from `unique-id`
(`none` models the `ValueError` of `int()`), values from the ladspa port
list. -/
def Ardour2Session.parse_ladspa (insert : A2Insert) : Option Plugin :=
  let enabled := insert.active == "yes"
  let name := insert.redirect_io_name
  (parsePyInt insert.unique_id).map fun unique_id =>
    Plugin.ladspa unique_id insert.ladspa_port_values enabled (some name)

/-- `Ardour2Session.parse_lv2`: like `parse_ladspa`, but the `unique-id`
attribute is taken verbatim as the URI. -/
def Ardour2Session.parse_lv2 (insert : A2Insert) : Plugin :=
  let enabled := insert.active == "yes"
  let name := insert.redirect_io_name
  Plugin.lv2 insert.unique_id insert.lv2_port_values enabled (some name)

/-- One unit of the insert scan: a ladspa or lv2 plugin, `none` for any
other type (skipped) — and also `none` when a ladspa `unique-id` does
not parse, which in the source is a crash rather than a skip
(`parse_inserts` distinguishes the two). -/
def Ardour2Session.parse_unit (ins : A2Insert) : Option Plugin :=
  if ins.type == "ladspa" then Ardour2Session.parse_ladspa ins
  else if ins.type == "lv2" then some (Ardour2Session.parse_lv2 ins)
  else none

/-- The insert scan of `Ardour2Session.parse_route`: partition the
ladspa/lv2 units into the pre-fader and post-fader lists in document
order, silently skipping units of any other type; `none` models the
`ValueError` of `int()` on a ladspa `unique-id`. -/
def Ardour2Session.parse_inserts : List A2Insert → Option (List Plugin × List Plugin)
  | [] => some ([], [])
  | ins :: rest =>
    if ins.type == "ladspa" then
      match Ardour2Session.parse_ladspa ins with
      | none => none
      | some plugin =>
        (Ardour2Session.parse_inserts rest).map fun pair =>
          if ins.is_post then (pair.1, plugin :: pair.2) else (plugin :: pair.1, pair.2)
    else if ins.type == "lv2" then
      (Ardour2Session.parse_inserts rest).map fun pair =>
        if ins.is_post then (pair.1, Ardour2Session.parse_lv2 ins :: pair.2)
        else (Ardour2Session.parse_lv2 ins :: pair.1, pair.2)
    else Ardour2Session.parse_inserts rest

/-- `Ardour2Session.parse_route`: channel count from the
`input-connection` heuristic (`+` means stereo) or the count of `{` port
group markers in `inputs`; then all pre-fader units followed by all
post-fader units.  `samplerate` is the session's already-parsed
`sample-rate` attribute. -/
def Ardour2Session.parse_route (samplerate : Int) (route : A2Route) : Option Track :=
  let nchannels : Int :=
    match route.io.input_connection with
    | some s => if pyContainsChar s '+' then 2 else 1
    | none => (pyCountChar route.io.inputs '\x7b' : Int)
  let name := route.io.name
  (Ardour2Session.parse_inserts route.inserts).map fun pair =>
    Track.mk (pair.1 ++ pair.2) nchannels samplerate (some name)

/-! ## The JACK Rack parser (`JackRack`) -/

/-- A `plugin` element of a JACK Rack document: the strings of its
`enabled` and `id` children and the `value` strings of its `controlrow`
children. -/
structure JRPluginElem where
  enabled_string : String
  id_string : String
  controlrow_values : List String
deriving DecidableEq

/-- A JACK Rack document: the `channels` and `samplerate` strings and the
`plugin` elements. -/
structure JRDoc where
  channels_string : String
  samplerate_string : String
  plugins : List JRPluginElem
deriving DecidableEq

/-- `JackRack.parse_ladspa`: enabled flag from the `enabled` string,
numeric id parsed from the `id` string (`none` models the `ValueError`
of `int()`), values from the control rows; the plugin gets no name. -/
def JackRack.parse_ladspa (plugin : JRPluginElem) : Option Plugin :=
  let enabled := plugin.enabled_string == "true"
  (parsePyInt plugin.id_string).map fun unique_id =>
    Plugin.ladspa unique_id plugin.controlrow_values enabled none

/-- The `JackRack` constructor: channel count and sample rate parsed from
the top-level strings, the single track from the plugin list. -/
def JackRack.parse (doc : JRDoc) : Option Track := do
  let nchannels ← parsePyInt doc.channels_string
  let samplerate ← parsePyInt doc.samplerate_string
  let plugins ← doc.plugins.mapM JackRack.parse_ladspa
  pure (Track.mk plugins nchannels samplerate none)

/-- Decidable equality of formatter results, for evaluating the model on
concrete inputs. -/
instance : DecidableEq (Except FmtError String) := fun a b =>
  match a, b with
  | .ok x, .ok y => decidable_of_iff (x = y) (by simp)
  | .error x, .error y => decidable_of_iff (x = y) (by simp)
  | .ok _, .error _ => isFalse (by simp)
  | .error _, .ok _ => isFalse (by simp)

/-! ## Theorems -/

theorem digitsToNat_nil : digitsToNat [] = 0 := rfl

/-- Claim C2: for the track `[A(enabled, id 1, values ["1.0","0.5"]),
B(disabled, id 2, values ["3"])]` with empty filter lists, descriptions
on, single-line off, chain-setup off, `format_track` with
include-disabled on returns exactly `"# 0: A\n-eli:1,1,0.5"` and
`"# 1: B\n# -eli:2,3"` joined by a newline, and with include-disabled
off returns only plugin A's two lines. -/
theorem spec_format_track_example :
    format_track ⟨[], [], true, false, false, false, "ecasound"⟩
        ⟨[Plugin.ladspa 1 ["1.0", "0.5"] true (some "A"),
          Plugin.ladspa 2 ["3"] false (some "B")], 2, 48000, none⟩
      = .ok "# 0: A\n-eli:1,1,0.5\n# 1: B\n# -eli:2,3"
    ∧ format_track ⟨[], [], false, false, false, false, "ecasound"⟩
        ⟨[Plugin.ladspa 1 ["1.0", "0.5"] true (some "A"),
          Plugin.ladspa 2 ["3"] false (some "B")], 2, 48000, none⟩
      = .ok "# 0: A\n-eli:1,1,0.5" := by
  constructor <;> decide

theorem format_track_of_find_some (o : Args) (track : Track) (i : Int)
    (hfind : (o.include_indices ++ o.exclude_indices).find?
      (fun i => decide (i < 0) || decide ((track.plugins.length : Int) ≤ i)) = some i) :
    format_track o track
      = .error (.exit ("error: plugin index " ++ str_int i ++ " is out of range")) := by
  unfold format_track
  rw [hfind]

theorem format_track_ne_exit_of_find_none (o : Args) (track : Track)
    (hfind : (o.include_indices ++ o.exclude_indices).find?
      (fun i => decide (i < 0) || decide ((track.plugins.length : Int) ≤ i)) = none) :
    ∀ msg, format_track o track ≠ .error (.exit msg) := by
  intro msg h
  unfold format_track at h
  rw [hfind] at h
  dsimp only at h
  cases hmap : (selected_plugins o track).mapM (fun ip => format_plugin o ip.1 ip.2) with
  | none =>
    rw [hmap] at h
    cases h
  | some strs =>
    rw [hmap] at h
    dsimp only at h
    by_cases hc : o.chain_setup = true
    · rw [if_pos hc] at h
      cases h
    · rw [if_neg hc] at h
      cases h

/-- Claim C4: `format_track` takes the fatal `sys.exit` branch iff some
index in the inclusion or exclusion list lies outside
`[0, plugin_count)`; when every listed index is in range, that branch is
never taken. -/
theorem spec_format_track_index_validation (o : Args) (track : Track) :
    ((∃ i ∈ o.include_indices ++ o.exclude_indices,
        i < 0 ∨ (track.plugins.length : Int) ≤ i)
      ↔ (∃ msg, format_track o track = .error (.exit msg)))
    ∧ ((∀ i ∈ o.include_indices ++ o.exclude_indices,
          0 ≤ i ∧ i < (track.plugins.length : Int)) →
        ∀ msg, format_track o track ≠ .error (.exit msg)) := by
  have main : (∃ i ∈ o.include_indices ++ o.exclude_indices,
      i < 0 ∨ (track.plugins.length : Int) ≤ i)
      ↔ (∃ msg, format_track o track = .error (.exit msg)) := by
    constructor
    · rintro ⟨i, hmem, hout⟩
      cases hfind : (o.include_indices ++ o.exclude_indices).find?
          (fun i => decide (i < 0) || decide ((track.plugins.length : Int) ≤ i)) with
      | none =>
        have hpi := List.find?_eq_none.mp hfind i hmem
        rcases hout with h1 | h1 <;> simp [h1] at hpi
      | some j =>
        exact ⟨_, format_track_of_find_some o track j hfind⟩
    · rintro ⟨msg, hmsg⟩
      cases hfind : (o.include_indices ++ o.exclude_indices).find?
          (fun i => decide (i < 0) || decide ((track.plugins.length : Int) ≤ i)) with
      | none => exact absurd hmsg (format_track_ne_exit_of_find_none o track hfind msg)
      | some j =>
        refine ⟨j, List.mem_of_find?_eq_some hfind, ?_⟩
        have := List.find?_some hfind
        simp only [Bool.or_eq_true, decide_eq_true_eq] at this
        exact this
  refine ⟨main, fun hall msg hmsg => ?_⟩
  obtain ⟨i, hmem, hout⟩ := main.mpr ⟨msg, hmsg⟩
  have := hall i hmem
  omega

/-- Claim C6: with chain-setup requested, `format_track` returns
exactly the fixed preamble
`-f:f32,<channels>,<rate> -G:jack,<client>,notransport -i:jack -o:jack`
followed by a blank line and the joined plugin lines (the result of the
same call without chain-setup). -/
theorem spec_chain_setup_wrapping (o : Args) (track : Track) (s : String)
    (h : format_track { o with chain_setup := false } track = .ok s) :
    format_track { o with chain_setup := true } track
      = .ok (chain_setup_preamble o track ++ "\n\n" ++ s) := by
  unfold format_track at h ⊢
  dsimp only at h ⊢
  cases hfind : (o.include_indices ++ o.exclude_indices).find?
      (fun i => decide (i < 0) || decide ((track.plugins.length : Int) ≤ i)) with
  | some j =>
    rw [hfind] at h
    cases h
  | none =>
    rw [hfind] at h
    dsimp only at h ⊢
    cases hmap : (selected_plugins { o with chain_setup := false } track).mapM
        (fun ip => format_plugin { o with chain_setup := false } ip.1 ip.2) with
    | none =>
      rw [hmap] at h
      cases h
    | some strs =>
      rw [hmap] at h
      have hmap2 : (selected_plugins { o with chain_setup := true } track).mapM
          (fun ip => format_plugin { o with chain_setup := true } ip.1 ip.2) = some strs := hmap
      rw [hmap2]
      dsimp only at h ⊢
      rw [if_neg (by decide)] at h
      rw [if_pos rfl]
      cases h
      rfl

/-- Claim C10: when the index lists are valid and the effective index
set selects no plugins for rendering, `format_track` succeeds and
returns the empty string — or, in chain-setup mode, the preamble
followed by a blank line and nothing. -/
theorem spec_empty_selection (o : Args) (track : Track)
    (hvalid : ∀ i ∈ o.include_indices ++ o.exclude_indices,
      0 ≤ i ∧ i < (track.plugins.length : Int))
    (hempty : selected_plugins o track = []) :
    format_track o track
      = .ok (if o.chain_setup then chain_setup_preamble o track ++ "\n\n" else "") := by
  unfold format_track
  have hfind : (o.include_indices ++ o.exclude_indices).find?
      (fun i => decide (i < 0) || decide ((track.plugins.length : Int) ≤ i)) = none := by
    apply List.find?_eq_none.mpr
    intro i hi
    have := hvalid i hi
    simp only [Bool.or_eq_true, decide_eq_true_eq]
    omega
  rw [hfind]
  dsimp only
  rw [hempty]
  show (if o.chain_setup then Except.ok (chain_setup_preamble o track ++ "\n\n" ++ "")
      else Except.ok "") = _
  by_cases hc : o.chain_setup = true
  · rw [if_pos hc, if_pos hc]
    rw [String.append_empty]
  · rw [if_neg hc, if_neg hc]

theorem effective_indices_of_include_empty (o : Args) (n : Nat)
    (h : o.include_indices = []) :
    effective_indices o n
      = ((List.range n).map (fun (i : Nat) => (i : Int))).filter
          (fun i => !o.exclude_indices.contains i) := by
  unfold effective_indices
  rw [h]
  rfl

theorem pairwise_lt_range_map_cast (n : Nat) :
    ((List.range n).map (fun (i : Nat) => (i : Int))).Pairwise (· < ·) :=
  List.pairwise_map.mpr ((List.pairwise_lt_range n).imp (fun hab => by exact_mod_cast hab))

/-- Claim C3: if the inclusion list is non-empty the effective indices
are exactly that list in its given order; otherwise they are all indices
of `[0, n)` not in the exclusion list, in ascending order; in particular
with both lists empty the selected plugins are precisely the plugins
passing the enabled/include-disabled filter, in ascending index
order. -/
theorem spec_effective_indices (o : Args) (n : Nat) (track : Track) :
    (o.include_indices ≠ [] → effective_indices o n = o.include_indices)
    ∧ (o.include_indices = [] →
        (∀ i : Int, i ∈ effective_indices o n
            ↔ 0 ≤ i ∧ i < (n : Int) ∧ i ∉ o.exclude_indices)
        ∧ (effective_indices o n).Pairwise (· < ·))
    ∧ (o.include_indices = [] → o.exclude_indices = [] →
        (∀ (i : Int) (p : Plugin), (i, p) ∈ selected_plugins o track
            ↔ 0 ≤ i ∧ track.plugins.get? i.toNat = some p
              ∧ (p.enabled || o.include_disabled) = true)
        ∧ ((selected_plugins o track).map Prod.fst).Pairwise (· < ·)) := by
  refine ⟨?_, ?_, ?_⟩
  · intro h
    unfold effective_indices
    rw [if_pos]
    cases hi : o.include_indices with
    | nil => exact absurd hi h
    | cons a l => rfl
  · intro h
    rw [effective_indices_of_include_empty o n h]
    constructor
    · intro i
      rw [List.mem_filter]
      constructor
      · rintro ⟨hmem, hpred⟩
        obtain ⟨j, hj, rfl⟩ := List.mem_map.mp hmem
        have hjn : j < n := List.mem_range.mp hj
        refine ⟨by omega, by exact_mod_cast hjn, fun hmem2 => ?_⟩
        rw [Bool.not_eq_true'] at hpred
        have hcont : o.exclude_indices.contains (j : Int) = true := List.elem_iff.mpr hmem2
        rw [hpred] at hcont
        exact absurd hcont (by decide)
      · rintro ⟨h0, hn, hni⟩
        constructor
        · exact List.mem_map.mpr ⟨i.toNat, List.mem_range.mpr (by omega),
            Int.toNat_of_nonneg h0⟩
        · rw [Bool.not_eq_true']
          cases hc : o.exclude_indices.contains i with
          | false => rfl
          | true => exact absurd (List.elem_iff.mp hc) hni
    · exact List.Pairwise.filter _ (pairwise_lt_range_map_cast n)
  · intro h he
    have heff : effective_indices o track.plugins.length
        = (List.range track.plugins.length).map (fun (i : Nat) => (i : Int)) := by
      rw [effective_indices_of_include_empty o _ h, he]
      apply List.filter_eq_self.mpr
      intro a _
      rfl
    unfold selected_plugins
    rw [heff]
    constructor
    · intro i p
      rw [List.mem_filter]
      constructor
      · rintro ⟨hmem, hq⟩
        obtain ⟨a, ha, hfa⟩ := List.mem_filterMap.mp hmem
        cases hget : track.plugins.get? a.toNat with
        | none => rw [hget] at hfa; cases hfa
        | some q =>
          rw [hget] at hfa
          simp only [Option.map_some', Option.some.injEq, Prod.mk.injEq] at hfa
          obtain ⟨rfl, rfl⟩ := hfa
          have h0 : 0 ≤ a := by
            obtain ⟨j, hj, hj2⟩ := List.mem_map.mp ha
            omega
          exact ⟨h0, hget, hq⟩
      · rintro ⟨h0, hget, hq⟩
        refine ⟨List.mem_filterMap.mpr ⟨i, ?_, ?_⟩, hq⟩
        · have hlt : i.toNat < track.plugins.length := by
            obtain ⟨hh, _⟩ := List.get?_eq_some.mp hget
            exact hh
          exact List.mem_map.mpr ⟨i.toNat, List.mem_range.mpr hlt, Int.toNat_of_nonneg h0⟩
        · rw [hget]
          rfl
    · have h2 : (((List.range track.plugins.length).map (fun (i : Nat) => (i : Int))).filterMap
          (fun i => (track.plugins.get? i.toNat).map fun p => (i, p))).Pairwise
            (fun a b => a.1 < b.1) := by
        rw [List.pairwise_filterMap]
        apply (pairwise_lt_range_map_cast track.plugins.length).imp
        intro a b hab b1 hb1 b2 hb2
        cases hg1 : track.plugins.get? a.toNat with
        | none => rw [hg1] at hb1; cases hb1
        | some q1 =>
          rw [hg1] at hb1
          cases hg2 : track.plugins.get? b.toNat with
          | none => rw [hg2] at hb2; cases hb2
          | some q2 =>
            rw [hg2] at hb2
            simp only [Option.map_some', Option.mem_def, Option.some.injEq] at hb1 hb2
            rw [← hb1, ← hb2]
            exact hab
      have h3 := h2.filter (fun ip => ip.2.enabled || o.include_disabled)
      exact List.pairwise_map.mpr h3


/-- Claim C7, counterexample: for a track named `"T"`,
`format_session` renders the underline `"--"` of length 2, not an
underline of the name's length 1 — the underline matches the rendered
header `name + ':'`, one longer than the name. -/
theorem spec_session_underline_counterexample :
    format_session ⟨[], [], false, false, true, false, "ecasound"⟩
        [⟨[Plugin.ladspa 1 [] true none], 2, 48000, some "T"⟩]
      = .ok "T:\n--\n-eli:1,"
    ∧ format_session ⟨[], [], false, false, true, false, "ecasound"⟩
        [⟨[Plugin.ladspa 1 [] true none], 2, 48000, some "T"⟩]
      ≠ .ok ("T" ++ ":\n" ++ dashes ("T" : String).length ++ "\n" ++ "-eli:1,") := by
  constructor <;> decide

/-- Claim C7, amended: for every non-empty list of tracks,
`format_session` renders every track, each preceded by its name plus a
colon and an underline of dashes whose length matches the header
`name + ':'` (the name's length plus one), with consecutive blocks
separated by blank lines. -/
theorem spec_format_session_blocks (o : Args) (tracks : List Track)
    (blocks : List String) (_hne : tracks ≠ [])
    (hb : List.Forall₂ (fun tr b => ∃ n body, tr.name = some n
        ∧ format_track o tr = .ok body
        ∧ b = n ++ ":\n" ++ dashes (n.length + 1) ++ "\n" ++ body) tracks blocks) :
    format_session o tracks = .ok (String.intercalate "\n\n" blocks) := by
  unfold format_session
  suffices h : session_blocks o tracks = .ok blocks by rw [h]; rfl
  clear _hne
  induction hb with
  | nil => rfl
  | cons hab hrest ih =>
    obtain ⟨n, body, hname, hfmt, hb1⟩ := hab
    show session_blocks o (_ :: _) = _
    unfold session_blocks
    rw [hname, hfmt, ih, hb1]
    rfl

/-- Claim C9: every JACK Rack plugin is parsed without a name, and
`format_plugin` with descriptions enabled does not fail on a nameless
plugin: it renders the description line `# <index>: ` with an empty
name, followed by the plugin's (possibly comment-prefixed) command
fragment. -/
theorem spec_nameless_plugin_formatting :
    (∀ (pe : JRPluginElem) (p : Plugin), JackRack.parse_ladspa pe = some p → p.name = none)
    ∧ (∀ (o : Args) (i : Int) (p : Plugin), o.no_description = false → p.name = none →
        format_plugin o i p = (p.format_cmdline format_value).map
          (fun cmd => "# " ++ str_int i ++ ": " ++ "\n"
            ++ (if !p.enabled then "# " else "") ++ cmd)) := by
  constructor
  · intro pe p h
    unfold JackRack.parse_ladspa at h
    cases hid : parsePyInt pe.id_string with
    | none => rw [hid] at h; cases h
    | some uid =>
      rw [hid] at h
      simp only [Option.map_some', Option.some.injEq] at h
      rw [← h]
      rfl
  · intro o i p hdesc hname
    unfold format_plugin
    rw [hname, hdesc]
    simp only [Bool.not_false, if_true]
    simp only [String.append_empty]


theorem parse_inserts_spec (l : List A2Insert) :
    ∀ pre post, Ardour2Session.parse_inserts l = some (pre, post) →
      pre = (l.filter (fun i => !i.is_post)).filterMap Ardour2Session.parse_unit
      ∧ post = (l.filter A2Insert.is_post).filterMap Ardour2Session.parse_unit := by
  induction l with
  | nil =>
    intro pre post h
    unfold Ardour2Session.parse_inserts at h
    simp only [Option.some.injEq, Prod.mk.injEq] at h
    obtain ⟨h1, h2⟩ := h
    subst h1
    subst h2
    exact ⟨rfl, rfl⟩
  | cons ins rest ih =>
    intro pre post h
    unfold Ardour2Session.parse_inserts at h
    by_cases hl : (ins.type == "ladspa") = true
    · rw [if_pos hl] at h
      cases hp : Ardour2Session.parse_ladspa ins with
      | none => rw [hp] at h; cases h
      | some plugin =>
        rw [hp] at h
        cases hrec : Ardour2Session.parse_inserts rest with
        | none => rw [hrec] at h; cases h
        | some pair =>
          rw [hrec] at h
          obtain ⟨p1, p2⟩ := pair
          obtain ⟨ih1, ih2⟩ := ih p1 p2 hrec
          simp only [Option.map_some', Option.some.injEq] at h
          have hunit : Ardour2Session.parse_unit ins = some plugin := by
            unfold Ardour2Session.parse_unit
            rw [if_pos hl, hp]
          by_cases hpost : ins.is_post = true
          · rw [if_pos hpost] at h
            injection h with h1 h2
            subst h1
            subst h2
            refine ⟨?_, ?_⟩
            · rw [List.filter_cons_of_neg (by simp [hpost])]
              exact ih1
            · rw [List.filter_cons_of_pos hpost, List.filterMap_cons, hunit, ← ih2]
          · rw [if_neg hpost] at h
            injection h with h1 h2
            subst h1
            subst h2
            refine ⟨?_, ?_⟩
            · rw [List.filter_cons_of_pos (by simp [hpost]), List.filterMap_cons, hunit, ← ih1]
            · rw [List.filter_cons_of_neg (by simp [hpost])]
              exact ih2
    · rw [if_neg hl] at h
      by_cases hlv : (ins.type == "lv2") = true
      · rw [if_pos hlv] at h
        cases hrec : Ardour2Session.parse_inserts rest with
        | none => rw [hrec] at h; cases h
        | some pair =>
          rw [hrec] at h
          obtain ⟨p1, p2⟩ := pair
          obtain ⟨ih1, ih2⟩ := ih p1 p2 hrec
          simp only [Option.map_some', Option.some.injEq] at h
          have hunit : Ardour2Session.parse_unit ins = some (Ardour2Session.parse_lv2 ins) := by
            unfold Ardour2Session.parse_unit
            rw [if_neg hl, if_pos hlv]
          by_cases hpost : ins.is_post = true
          · rw [if_pos hpost] at h
            injection h with h1 h2
            subst h1
            subst h2
            refine ⟨?_, ?_⟩
            · rw [List.filter_cons_of_neg (by simp [hpost])]
              exact ih1
            · rw [List.filter_cons_of_pos hpost, List.filterMap_cons, hunit, ← ih2]
          · rw [if_neg hpost] at h
            injection h with h1 h2
            subst h1
            subst h2
            refine ⟨?_, ?_⟩
            · rw [List.filter_cons_of_pos (by simp [hpost]), List.filterMap_cons, hunit, ← ih1]
            · rw [List.filter_cons_of_neg (by simp [hpost])]
              exact ih2
      · rw [if_neg hlv] at h
        obtain ⟨ih1, ih2⟩ := ih pre post h
        have hunit : Ardour2Session.parse_unit ins = none := by
          unfold Ardour2Session.parse_unit
          rw [if_neg hl, if_neg hlv]
        by_cases hpost : ins.is_post = true
        · refine ⟨?_, ?_⟩
          · rw [List.filter_cons_of_neg (by simp [hpost])]
            exact ih1
          · rw [List.filter_cons_of_pos hpost, List.filterMap_cons, hunit]
            exact ih2
        · refine ⟨?_, ?_⟩
          · rw [List.filter_cons_of_pos (by simp [hpost]), List.filterMap_cons, hunit]
            exact ih1
          · rw [List.filter_cons_of_neg (by simp [hpost])]
            exact ih2

theorem parse_inserts_isSome (l : List A2Insert)
    (h : ∀ ins ∈ l, ins.type = "ladspa" → (Ardour2Session.parse_ladspa ins).isSome = true) :
    (Ardour2Session.parse_inserts l).isSome = true := by
  induction l with
  | nil => rfl
  | cons ins rest ih =>
    have hrest := ih (fun i hi ht => h i (List.mem_cons_of_mem _ hi) ht)
    unfold Ardour2Session.parse_inserts
    by_cases hl : (ins.type == "ladspa") = true
    · rw [if_pos hl]
      have hsome := h ins (List.mem_cons_self _ _) (beq_iff_eq.mp hl)
      cases hp : Ardour2Session.parse_ladspa ins with
      | none => rw [hp] at hsome; exact absurd hsome (by decide)
      | some plugin =>
        cases hrec : Ardour2Session.parse_inserts rest with
        | none => rw [hrec] at hrest; exact absurd hrest (by decide)
        | some pair => rfl
    · rw [if_neg hl]
      by_cases hlv : (ins.type == "lv2") = true
      · rw [if_pos hlv]
        cases hrec : Ardour2Session.parse_inserts rest with
        | none => rw [hrec] at hrest; exact absurd hrest (by decide)
        | some pair => rfl
      · rw [if_neg hlv]
        exact hrest

/-- Claim C5: a track parsed by `Ardour2Session.parse_route` has
exactly the pre-fader ladspa/lv2 units in document order followed by the
post-fader ones in document order, and units of any other type are
silently skipped without error. -/
theorem spec_ardour2_plugin_order (sr : Int) (route : A2Route) :
    (∀ t, Ardour2Session.parse_route sr route = some t →
      t.plugins
        = (route.inserts.filter (fun i => !i.is_post)).filterMap Ardour2Session.parse_unit
          ++ (route.inserts.filter A2Insert.is_post).filterMap Ardour2Session.parse_unit)
    ∧ ((∀ ins ∈ route.inserts, ins.type = "ladspa" →
          (Ardour2Session.parse_ladspa ins).isSome = true) →
        (Ardour2Session.parse_route sr route).isSome = true) := by
  constructor
  · intro t h
    unfold Ardour2Session.parse_route at h
    cases hrec : Ardour2Session.parse_inserts route.inserts with
    | none => rw [hrec] at h; cases h
    | some pair =>
      rw [hrec] at h
      obtain ⟨p1, p2⟩ := pair
      obtain ⟨ih1, ih2⟩ := parse_inserts_spec route.inserts p1 p2 hrec
      simp only [Option.map_some', Option.some.injEq] at h
      rw [← h]
      show p1 ++ p2 = _
      rw [ih1, ih2]
  · intro hall
    unfold Ardour2Session.parse_route
    have hsome := parse_inserts_isSome route.inserts hall
    cases hrec : Ardour2Session.parse_inserts route.inserts with
    | none => rw [hrec] at hsome; exact absurd hsome (by decide)
    | some pair => rfl

/-- Claim C8: a track parsed by `Ardour2Session.parse_route` has
channel count 2 or 1 according to whether the `input-connection`
attribute (when present) contains a `+`, and otherwise the number of `{`
port-group markers in the `inputs` attribute. -/
theorem spec_ardour2_nchannels (sr : Int) (route : A2Route) (t : Track)
    (h : Ardour2Session.parse_route sr route = some t) :
    (∀ s, route.io.input_connection = some s →
        t.nchannels = if pyContainsChar s '+' then 2 else 1)
    ∧ (route.io.input_connection = none →
        t.nchannels = (pyCountChar route.io.inputs '\x7b' : Int)) := by
  unfold Ardour2Session.parse_route at h
  cases hrec : Ardour2Session.parse_inserts route.inserts with
  | none => rw [hrec] at h; cases h
  | some pair =>
    rw [hrec] at h
    simp only [Option.map_some', Option.some.injEq] at h
    constructor
    · intro s hs
      rw [← h]
      show (match route.io.input_connection with
        | some s => if pyContainsChar s '+' then 2 else 1
        | none => (pyCountChar route.io.inputs '\x7b' : Int)) = _
      rw [hs]
    · intro hn
      rw [← h]
      show (match route.io.input_connection with
        | some s => if pyContainsChar s '+' then 2 else 1
        | none => (pyCountChar route.io.inputs '\x7b' : Int)) = _
      rw [hn]


theorem spec_effective_indices_witness :
    effective_indices ⟨[1], [], false, false, false, false, ""⟩ 3 = [1]
    ∧ ((0 : Int) ∈ effective_indices ⟨[], [2], false, false, false, false, ""⟩ 3
        ↔ 0 ≤ (0 : Int) ∧ (0 : Int) < (3 : Nat) ∧ (0 : Int) ∉ [(2 : Int)]) :=
  ⟨(spec_effective_indices ⟨[1], [], false, false, false, false, ""⟩ 3
      ⟨[], 2, 48000, none⟩).1 (by decide),
   ((spec_effective_indices ⟨[], [2], false, false, false, false, ""⟩ 3
      ⟨[], 2, 48000, none⟩).2.1 rfl).1 0⟩

theorem spec_format_track_index_validation_witness :
    ∃ msg, format_track ⟨[3], [], false, false, false, false, ""⟩
        ⟨[Plugin.ladspa 1 [] true none], 2, 48000, none⟩ = .error (.exit msg) :=
  (spec_format_track_index_validation ⟨[3], [], false, false, false, false, ""⟩
      ⟨[Plugin.ladspa 1 [] true none], 2, 48000, none⟩).1.mp ⟨3, by decide, by decide⟩

theorem spec_ardour2_plugin_order_witness :
    (Ardour2Session.parse_route 48000
        ⟨⟨none, "x", "tr"⟩,
         [⟨"ladspa", "PreFader", "yes", "nm", "7", ["1"], []⟩,
          ⟨"send", "PreFader", "yes", "x", "z", [], []⟩,
          ⟨"lv2", "PostFader", "yes", "nm2", "uri", [], ["2"]⟩]⟩).isSome = true :=
  (spec_ardour2_plugin_order 48000
      ⟨⟨none, "x", "tr"⟩,
       [⟨"ladspa", "PreFader", "yes", "nm", "7", ["1"], []⟩,
        ⟨"send", "PreFader", "yes", "x", "z", [], []⟩,
        ⟨"lv2", "PostFader", "yes", "nm2", "uri", [], ["2"]⟩]⟩).2 (by decide)

theorem spec_chain_setup_wrapping_witness :
    JackRack.parse ⟨"2", "44100", [⟨"true", "3", ["0.2", "0.8"]⟩]⟩
      = some ⟨[Plugin.ladspa 3 ["0.2", "0.8"] true none], 2, 44100, none⟩
    ∧ chain_setup_preamble ⟨[], [], false, false, false, true, "myclient"⟩
        ⟨[Plugin.ladspa 3 ["0.2", "0.8"] true none], 2, 44100, none⟩
      = "-f:f32,2,44100 -G:jack,myclient,notransport -i:jack -o:jack"
    ∧ format_track { (⟨[], [], false, false, false, true, "myclient"⟩ : Args)
          with chain_setup := true }
        ⟨[Plugin.ladspa 3 ["0.2", "0.8"] true none], 2, 44100, none⟩
      = .ok (chain_setup_preamble ⟨[], [], false, false, false, true, "myclient"⟩
            ⟨[Plugin.ladspa 3 ["0.2", "0.8"] true none], 2, 44100, none⟩
          ++ "\n\n" ++ "# 0: \n-eli:3,0.2,0.8") :=
  ⟨by decide, by decide,
   spec_chain_setup_wrapping ⟨[], [], false, false, false, true, "myclient"⟩
     ⟨[Plugin.ladspa 3 ["0.2", "0.8"] true none], 2, 44100, none⟩
     "# 0: \n-eli:3,0.2,0.8" (by decide)⟩

theorem spec_format_session_blocks_witness :
    format_session ⟨[], [], false, false, true, false, "ecasound"⟩
        [⟨[Plugin.ladspa 1 [] true none], 2, 48000, some "T"⟩]
      = .ok (String.intercalate "\n\n" ["T:\n--\n-eli:1,"]) :=
  spec_format_session_blocks ⟨[], [], false, false, true, false, "ecasound"⟩
    [⟨[Plugin.ladspa 1 [] true none], 2, 48000, some "T"⟩] ["T:\n--\n-eli:1,"]
    (by decide)
    (List.Forall₂.cons ⟨"T", "-eli:1,", rfl, by decide, by decide⟩ List.Forall₂.nil)

theorem spec_ardour2_nchannels_witness :
    (Track.mk [] 2 48000 (some "tr")).nchannels
        = (if pyContainsChar "a+b" '+' then 2 else 1)
    ∧ (Track.mk [] 2 48000 (some "tr")).nchannels
        = (pyCountChar "\x7b\x7b" '\x7b' : Int) :=
  ⟨(spec_ardour2_nchannels 48000 ⟨⟨some "a+b", "", "tr"⟩, []⟩
      (Track.mk [] 2 48000 (some "tr")) (by decide)).1 "a+b" rfl,
   (spec_ardour2_nchannels 48000 ⟨⟨none, "\x7b\x7b", "tr"⟩, []⟩
      (Track.mk [] 2 48000 (some "tr")) (by decide)).2 rfl⟩

theorem spec_nameless_plugin_formatting_witness :
    (JackRack.parse_ladspa ⟨"true", "3", ["0.2", "0.8"]⟩
        = some (Plugin.ladspa 3 ["0.2", "0.8"] true none)
      ∧ (Plugin.ladspa 3 ["0.2", "0.8"] true none).name = none)
    ∧ format_plugin ⟨[], [], false, false, false, false, ""⟩ 0
        (Plugin.ladspa 3 ["0.2", "0.8"] true none)
      = ((Plugin.ladspa 3 ["0.2", "0.8"] true none).format_cmdline format_value).map
          (fun cmd => "# " ++ str_int 0 ++ ": " ++ "\n"
            ++ (if !(Plugin.ladspa 3 ["0.2", "0.8"] true none).enabled then "# " else "")
            ++ cmd) :=
  ⟨⟨by decide, spec_nameless_plugin_formatting.1 ⟨"true", "3", ["0.2", "0.8"]⟩
      (Plugin.ladspa 3 ["0.2", "0.8"] true none) (by decide)⟩,
   spec_nameless_plugin_formatting.2 ⟨[], [], false, false, false, false, ""⟩ 0
     (Plugin.ladspa 3 ["0.2", "0.8"] true none) rfl rfl⟩

theorem spec_empty_selection_witness :
    format_track ⟨[], [], false, false, false, false, "ecasound"⟩ ⟨[], 2, 48000, none⟩
      = .ok "" :=
  spec_empty_selection ⟨[], [], false, false, false, false, "ecasound"⟩ ⟨[], 2, 48000, none⟩
    (by intro i hi; simp at hi) (by decide)
